import Mathlib

/-!
Shallow embedding of the cpu-stats-rs library (src/lib.rs): a reader of
Linux /proc/stat CPU counters that converts successive absolute-counter
snapshots into per-interval deltas and an idle-percent figure.

Modelling conventions:
* Rust `u64` values are `Nat` together with explicit reduction modulo `2 ^ 64`
  wherever release-mode Rust arithmetic wraps; the operation that always
  panics (division by zero) returns `Option.none`.
* Rust strings are Lean `String`s; the tokenizer walks the underlying
  character list, mirroring `str::split(" ")` (which cuts at every single
  space character, so consecutive spaces produce empty tokens).
* The two effects inside `CPUStatsContext::read` — the `Instant::now()`
  timestamp and the `raw_read()` of the feed — enter the model as explicit
  parameters: an abstract millisecond clock value and the freshly parsed
  record list.
-/

/-- Modulus of the Rust `u64` type; all counter fields are `u64`. -/
def U64_MOD : Nat := 2 ^ 64

/-- Release-mode Rust `u64` subtraction `a - b`: wraps modulo `2 ^ 64`.
Faithful to the machine operation whenever `a` and `b` are below `U64_MOD`. -/
def wrapping_sub (a b : Nat) : Nat := (a + U64_MOD - b) % U64_MOD

/-- Rust `str::split(" ")` over the character list of a line: cut at every
single occurrence of the space character. `n` consecutive spaces yield `n + 1`
(partly empty) tokens, and the result is never the empty list. -/
def splitSp : List Char → List (List Char)
  | [] => [[]]
  | c :: cs =>
    if c = ' ' then [] :: splitSp cs
    else
      match splitSp cs with
      | t :: ts => (c :: t) :: ts
      | [] => [[c]]

/-- Digit-accumulation loop of Rust `u64::from_str`: consume decimal digits,
failing on the first non-digit character. -/
def parseDigits : List Char → Nat → Option Nat
  | [], acc => some acc
  | c :: cs, acc =>
    if c.isDigit then parseDigits cs (acc * 10 + (c.toNat - 48)) else none

/-- Rust `str::parse::<u64>()`: an optional leading `'+'` sign, then one or
more decimal digits whose value fits in `u64`; everything else is an error. -/
def parseU64 (w : List Char) : Option Nat :=
  let digits :=
    match w with
    | '+' :: rest => rest
    | _ => w
  match digits with
  | [] => none
  | _ =>
    (parseDigits digits 0).bind (fun v => if v < U64_MOD then some v else none)

/-- `Iterator::next` on the token stream of a line: the next token together
with the remaining stream, or `none` when exhausted. -/
def nextToken : List (List Char) → Option (List Char × List (List Char))
  | [] => none
  | t :: ts => some (t, ts)

/-- The `next_value!` helper of the source: `iter.next()` followed by
`parse::<u64>().ok()` — take the next token and parse it as `u64`. -/
def next_value (atoms : List (List Char)) : Option (Nat × List (List Char)) :=
  (nextToken atoms).bind (fun p => (parseU64 p.1).map (fun v => (v, p.2)))

/-- The ten counter fields of one /proc/stat row, in source field order. -/
structure Counters where
  user_processes : Nat
  nice_processes : Nat
  system_processes : Nat
  idle_time : Nat
  io_wait : Nat
  irq : Nat
  soft_irq : Nat
  steal_time : Nat
  guest : Nat
  guest_nice : Nat
  deriving DecidableEq

/-- Statistics for a single CPU core: `struct CoreStats` of the source. -/
structure CoreStats where
  name : String
  user_processes : Nat
  nice_processes : Nat
  system_processes : Nat
  idle_time : Nat
  io_wait : Nat
  irq : Nat
  soft_irq : Nat
  steal_time : Nat
  guest : Nat
  guest_nice : Nat
  deriving DecidableEq

/-- The ten consecutive `next_value!` calls inside `CoreStats::from_str`,
in the fixed field order of the record literal. -/
def readCounters (atoms : List (List Char)) : Option Counters := do
  let (user_processes, atoms) ← next_value atoms
  let (nice_processes, atoms) ← next_value atoms
  let (system_processes, atoms) ← next_value atoms
  let (idle_time, atoms) ← next_value atoms
  let (io_wait, atoms) ← next_value atoms
  let (irq, atoms) ← next_value atoms
  let (soft_irq, atoms) ← next_value atoms
  let (steal_time, atoms) ← next_value atoms
  let (guest, atoms) ← next_value atoms
  let (guest_nice, _) ← next_value atoms
  pure { user_processes, nice_processes, system_processes, idle_time, io_wait,
         irq, soft_irq, steal_time, guest, guest_nice }

/-- Identity handling at the top of `CoreStats::from_str`: the first token is
the name; when the name is exactly `"cpu"` (the aggregate of all cores) the
next token — the blank entry the feed inserts there — is discarded first. -/
def stripIdentity (atoms0 : List (List Char)) :
    Option (List Char × List (List Char)) := do
  let (name, atoms) ← nextToken atoms0
  if name = "cpu".data then
    let (_, atoms) ← nextToken atoms
    pure (name, atoms)
  else
    pure (name, atoms)

/-- Body of `CoreStats::from_str` after the split: read the identity (plus the
aggregate placeholder when present), then the ten counters. -/
def fromTokens (atoms0 : List (List Char)) : Option CoreStats := do
  let (name, atoms) ← stripIdentity atoms0
  let c ← readCounters atoms
  pure { name := String.mk name
         user_processes := c.user_processes
         nice_processes := c.nice_processes
         system_processes := c.system_processes
         idle_time := c.idle_time
         io_wait := c.io_wait
         irq := c.irq
         soft_irq := c.soft_irq
         steal_time := c.steal_time
         guest := c.guest
         guest_nice := c.guest_nice }

/-- `CoreStats::from_str`: split the line on the space character, then parse
identity and counters. -/
def CoreStats.from_str (line : String) : Option CoreStats :=
  fromTokens (splitSp line.data)

/-- `CoreStats::is_aggregate`: the record is the aggregate of all cores. -/
def CoreStats.is_aggregate (self : CoreStats) : Bool :=
  self.name == "cpu"

/-- `CoreStats::diff`: per-field `u64` subtraction `other - self` of the
counters, except `io_wait`, which is carried over from `other` verbatim;
the name comes from `self`. -/
def CoreStats.diff (self other : CoreStats) : CoreStats :=
  { name := self.name
    user_processes := wrapping_sub other.user_processes self.user_processes
    nice_processes := wrapping_sub other.nice_processes self.nice_processes
    system_processes := wrapping_sub other.system_processes self.system_processes
    idle_time := wrapping_sub other.idle_time self.idle_time
    io_wait := other.io_wait
    irq := wrapping_sub other.irq self.irq
    soft_irq := wrapping_sub other.soft_irq self.soft_irq
    steal_time := wrapping_sub other.steal_time self.steal_time
    guest := wrapping_sub other.guest self.guest
    guest_nice := wrapping_sub other.guest_nice self.guest_nice }

/-- Projection of a `CoreStats` record onto its ten counter fields. -/
def CoreStats.toCounters (r : CoreStats) : Counters :=
  { user_processes := r.user_processes
    nice_processes := r.nice_processes
    system_processes := r.system_processes
    idle_time := r.idle_time
    io_wait := r.io_wait
    irq := r.irq
    soft_irq := r.soft_irq
    steal_time := r.steal_time
    guest := r.guest
    guest_nice := r.guest_nice }

/-- `struct CoreSnapshot`: a delta record plus the elapsed period in
milliseconds. -/
structure CoreSnapshot where
  stats : CoreStats
  period_ms : Nat
  deriving DecidableEq

/-- `CoreSnapshot::idle_percent`: `(idle_time * 1000) / period_ms` in `u64`
arithmetic. The multiplication wraps modulo `2 ^ 64` in release mode; Rust
division by zero panics unconditionally, modelled as `none`. -/
def CoreSnapshot.idle_percent (self : CoreSnapshot) : Option Nat :=
  if self.period_ms = 0 then none
  else some (self.stats.idle_time * 1000 % U64_MOD / self.period_ms)

/-- `struct CPUStatsContext`: the stats from the previous read and the
instant (here: an abstract millisecond clock value) when they were read.
These are its only two fields. -/
structure CPUStatsContext where
  last_stats : List CoreStats
  last_instant : Nat

/-- `CPUStatsContext::read`: capture `now`, compute the elapsed period since
`last_instant`, read the fresh records (`now_stats`), zip the stored baseline
with them positionally into diff snapshots, then replace both stored fields
with the fresh values. -/
def CPUStatsContext.read (self : CPUStatsContext) (now : Nat)
    (now_stats : List CoreStats) : List CoreSnapshot × CPUStatsContext :=
  let period_ms := now - self.last_instant
  let snapshots := List.zipWith
    (fun l n => { stats := l.diff n, period_ms := period_ms })
    self.last_stats now_stats
  (snapshots, { last_stats := now_stats, last_instant := now })

/-- All ten counter fields of a record fit in `u64` (true of every record the
parser produces; stated explicitly because the embedding uses `Nat`). -/
def CoreStats.Bounded (r : CoreStats) : Prop :=
  r.user_processes < U64_MOD ∧ r.nice_processes < U64_MOD ∧
  r.system_processes < U64_MOD ∧ r.idle_time < U64_MOD ∧
  r.io_wait < U64_MOD ∧ r.irq < U64_MOD ∧ r.soft_irq < U64_MOD ∧
  r.steal_time < U64_MOD ∧ r.guest < U64_MOD ∧ r.guest_nice < U64_MOD

instance (r : CoreStats) : Decidable r.Bounded := by
  unfold CoreStats.Bounded
  infer_instance

/-- Each of the nine differenced counter fields (all but `io_wait`) of the
older record is at most the corresponding field of the newer one — the
normal monotone-counter situation. -/
def DiffFieldsLE (a b : CoreStats) : Prop :=
  a.user_processes ≤ b.user_processes ∧ a.nice_processes ≤ b.nice_processes ∧
  a.system_processes ≤ b.system_processes ∧ a.idle_time ≤ b.idle_time ∧
  a.irq ≤ b.irq ∧ a.soft_irq ≤ b.soft_irq ∧
  a.steal_time ≤ b.steal_time ∧ a.guest ≤ b.guest ∧ a.guest_nice ≤ b.guest_nice

instance (a b : CoreStats) : Decidable (DiffFieldsLE a b) := by
  unfold DiffFieldsLE
  infer_instance

/-- Ten tokens are available on the stream and each of them parses as `u64`. -/
def countersOk (ts : List (List Char)) : Bool :=
  decide (10 ≤ ts.length) && (ts.take 10).all (fun t => (parseU64 t).isSome)

/-! ### Helper lemmas -/

theorem wrapping_sub_self (a : Nat) : wrapping_sub a a = 0 := by
  unfold wrapping_sub
  simp [Nat.add_sub_cancel_left]

theorem wrapping_sub_of_le {a b : Nat} (h : b ≤ a) (ha : a < U64_MOD) :
    wrapping_sub a b = a - b := by
  unfold wrapping_sub U64_MOD at *
  omega

theorem wrapping_sub_underflow {a b : Nat} (h : a < b) (hb : b < U64_MOD) :
    wrapping_sub a b = U64_MOD - (b - a) := by
  unfold wrapping_sub U64_MOD at *
  omega

theorem wrapping_sub_underflow_pos {a b : Nat} (h : a < b) (hb : b < U64_MOD) :
    wrapping_sub a b = U64_MOD - (b - a) ∧ 0 < wrapping_sub a b := by
  unfold wrapping_sub U64_MOD at *
  omega

theorem zipWith_getElem? {α β γ : Type} (f : α → β → γ)
    (l1 : List α) (l2 : List β) (i : Nat) :
    (List.zipWith f l1 l2)[i]? =
      match l1[i]?, l2[i]? with
      | some a, some b => some (f a b)
      | _, _ => none := by
  induction l1 generalizing l2 i with
  | nil => simp
  | cons a as ih =>
    cases l2 with
    | nil => simp
    | cons b bs =>
      cases i with
      | zero => simp
      | succ j => simpa using ih bs j

theorem next_value_some {ts : List (List Char)} {v : Nat}
    {rest : List (List Char)} (h : next_value ts = some (v, rest)) :
    ∃ t, ts = t :: rest ∧ parseU64 t = some v := by
  rcases ts with _ | ⟨t, ts'⟩
  · simp [next_value, nextToken] at h
  · simp only [next_value, nextToken, Option.some_bind, Option.map_eq_some'] at h
    obtain ⟨a, ha, heq⟩ := h
    rw [Prod.mk.injEq] at heq
    obtain ⟨rfl, rfl⟩ := heq
    exact ⟨t, rfl, ha⟩

theorem readCounters_some_ok (ts : List (List Char)) (c : Counters)
    (h : readCounters ts = some c) : countersOk ts = true := by
  unfold readCounters at h
  simp only [Option.bind_eq_bind, Option.bind_eq_some, Option.pure_def,
    Option.some.injEq] at h
  obtain ⟨⟨v1, ts1⟩, hn1, h⟩ := h
  obtain ⟨⟨v2, ts2⟩, hn2, h⟩ := h
  obtain ⟨⟨v3, ts3⟩, hn3, h⟩ := h
  obtain ⟨⟨v4, ts4⟩, hn4, h⟩ := h
  obtain ⟨⟨v5, ts5⟩, hn5, h⟩ := h
  obtain ⟨⟨v6, ts6⟩, hn6, h⟩ := h
  obtain ⟨⟨v7, ts7⟩, hn7, h⟩ := h
  obtain ⟨⟨v8, ts8⟩, hn8, h⟩ := h
  obtain ⟨⟨v9, ts9⟩, hn9, h⟩ := h
  obtain ⟨⟨v10, ts10⟩, hn10, h⟩ := h
  obtain ⟨t1, rfl, hp1⟩ := next_value_some hn1
  obtain ⟨t2, rfl, hp2⟩ := next_value_some hn2
  obtain ⟨t3, rfl, hp3⟩ := next_value_some hn3
  obtain ⟨t4, rfl, hp4⟩ := next_value_some hn4
  obtain ⟨t5, rfl, hp5⟩ := next_value_some hn5
  obtain ⟨t6, rfl, hp6⟩ := next_value_some hn6
  obtain ⟨t7, rfl, hp7⟩ := next_value_some hn7
  obtain ⟨t8, rfl, hp8⟩ := next_value_some hn8
  obtain ⟨t9, rfl, hp9⟩ := next_value_some hn9
  obtain ⟨t10, rfl, hp10⟩ := next_value_some hn10
  simp [countersOk, hp1, hp2, hp3, hp4, hp5, hp6, hp7, hp8, hp9, hp10]

/-! ### Claim theorems -/

/-- Claim C1 is false as stated: diffing a CounterRecord against an identical
record does not zero every one of the ten counter fields — `io_wait` is
carried over from the later sample verbatim, here 5. -/
theorem c1_counterexample :
    (CoreStats.diff ⟨"cpu0", 0, 0, 0, 0, 5, 0, 0, 0, 0, 0⟩
        ⟨"cpu0", 0, 0, 0, 0, 5, 0, 0, 0, 0, 0⟩).io_wait ≠ 0 := by
  decide

/-- Claim C1 (amended): diffing a record against an identical record zeroes
the nine differenced counter fields, while `io_wait` is carried over verbatim;
for every positive elapsed time the resulting snapshot's idle percentage
is 0. -/
theorem c1_diff_self (r : CoreStats) (elapsed_ms : Nat) (h : 0 < elapsed_ms) :
    (r.diff r).user_processes = 0 ∧ (r.diff r).nice_processes = 0 ∧
    (r.diff r).system_processes = 0 ∧ (r.diff r).idle_time = 0 ∧
    (r.diff r).irq = 0 ∧ (r.diff r).soft_irq = 0 ∧
    (r.diff r).steal_time = 0 ∧ (r.diff r).guest = 0 ∧
    (r.diff r).guest_nice = 0 ∧ (r.diff r).io_wait = r.io_wait ∧
    CoreSnapshot.idle_percent ⟨r.diff r, elapsed_ms⟩ = some 0 := by
  unfold CoreStats.diff CoreSnapshot.idle_percent
  simp [wrapping_sub_self, h.ne']

/-- Claim C1 witness: the amended statement at a concrete record with nonzero
counters and a 500 ms interval. -/
theorem c1_diff_self_witness :
    CoreSnapshot.idle_percent
      ⟨CoreStats.diff ⟨"cpu1", 1, 2, 3, 4, 5, 6, 7, 8, 9, 10⟩
          ⟨"cpu1", 1, 2, 3, 4, 5, 6, 7, 8, 9, 10⟩, 500⟩ = some 0 :=
  (c1_diff_self ⟨"cpu1", 1, 2, 3, 4, 5, 6, 7, 8, 9, 10⟩ 500
    (by decide)).2.2.2.2.2.2.2.2.2.2

/-- Claim C2: `diff` carries `io_wait` from the later sample verbatim
(unconditionally), while each of the other nine counter fields equals new
minus old — exactly, whenever the new counters fit in `u64` and are at least
the old ones. -/
theorem c2_diff_new_minus_old (old new : CoreStats) :
    (old.diff new).io_wait = new.io_wait ∧
    (new.Bounded → DiffFieldsLE old new →
      (old.diff new).user_processes = new.user_processes - old.user_processes ∧
      (old.diff new).nice_processes = new.nice_processes - old.nice_processes ∧
      (old.diff new).system_processes =
        new.system_processes - old.system_processes ∧
      (old.diff new).idle_time = new.idle_time - old.idle_time ∧
      (old.diff new).irq = new.irq - old.irq ∧
      (old.diff new).soft_irq = new.soft_irq - old.soft_irq ∧
      (old.diff new).steal_time = new.steal_time - old.steal_time ∧
      (old.diff new).guest = new.guest - old.guest ∧
      (old.diff new).guest_nice = new.guest_nice - old.guest_nice) := by
  refine ⟨rfl, fun hb hle => ?_⟩
  obtain ⟨b1, b2, b3, b4, b5, b6, b7, b8, b9, b10⟩ := hb
  obtain ⟨l1, l2, l3, l4, l5, l6, l7, l8, l9⟩ := hle
  unfold CoreStats.diff
  exact ⟨wrapping_sub_of_le l1 b1, wrapping_sub_of_le l2 b2,
    wrapping_sub_of_le l3 b3, wrapping_sub_of_le l4 b4,
    wrapping_sub_of_le l5 b6, wrapping_sub_of_le l6 b7,
    wrapping_sub_of_le l7 b8, wrapping_sub_of_le l8 b9,
    wrapping_sub_of_le l9 b10⟩

/-- Claim C2 witness: the differenced fields at a concrete monotone pair of
records. -/
theorem c2_diff_new_minus_old_witness :
    (CoreStats.diff ⟨"cpu0", 1, 1, 1, 1, 1, 1, 1, 1, 1, 1⟩
        ⟨"cpu0", 5, 6, 7, 8, 9, 10, 11, 12, 13, 14⟩).io_wait = 9 ∧
    (CoreStats.diff ⟨"cpu0", 1, 1, 1, 1, 1, 1, 1, 1, 1, 1⟩
        ⟨"cpu0", 5, 6, 7, 8, 9, 10, 11, 12, 13, 14⟩).user_processes = 5 - 1 :=
  ⟨(c2_diff_new_minus_old ⟨"cpu0", 1, 1, 1, 1, 1, 1, 1, 1, 1, 1⟩
      ⟨"cpu0", 5, 6, 7, 8, 9, 10, 11, 12, 13, 14⟩).1,
   ((c2_diff_new_minus_old ⟨"cpu0", 1, 1, 1, 1, 1, 1, 1, 1, 1, 1⟩
      ⟨"cpu0", 5, 6, 7, 8, 9, 10, 11, 12, 13, 14⟩).2 (by decide) (by decide)).1⟩

/-- Claim C3: whenever a current counter field is smaller than the stored one,
`diff` computes that field by unsigned 64-bit subtraction, which wraps modulo
`2 ^ 64` to the huge positive value `U64_MOD - (old - new)` — never an error,
never a saturation at zero. Stated for each of the nine differenced fields. -/
theorem c3_diff_underflow (old new : CoreStats) (hb : old.Bounded) :
    (new.user_processes < old.user_processes →
      (old.diff new).user_processes =
        U64_MOD - (old.user_processes - new.user_processes) ∧
      0 < (old.diff new).user_processes) ∧
    (new.nice_processes < old.nice_processes →
      (old.diff new).nice_processes =
        U64_MOD - (old.nice_processes - new.nice_processes) ∧
      0 < (old.diff new).nice_processes) ∧
    (new.system_processes < old.system_processes →
      (old.diff new).system_processes =
        U64_MOD - (old.system_processes - new.system_processes) ∧
      0 < (old.diff new).system_processes) ∧
    (new.idle_time < old.idle_time →
      (old.diff new).idle_time = U64_MOD - (old.idle_time - new.idle_time) ∧
      0 < (old.diff new).idle_time) ∧
    (new.irq < old.irq →
      (old.diff new).irq = U64_MOD - (old.irq - new.irq) ∧
      0 < (old.diff new).irq) ∧
    (new.soft_irq < old.soft_irq →
      (old.diff new).soft_irq = U64_MOD - (old.soft_irq - new.soft_irq) ∧
      0 < (old.diff new).soft_irq) ∧
    (new.steal_time < old.steal_time →
      (old.diff new).steal_time = U64_MOD - (old.steal_time - new.steal_time) ∧
      0 < (old.diff new).steal_time) ∧
    (new.guest < old.guest →
      (old.diff new).guest = U64_MOD - (old.guest - new.guest) ∧
      0 < (old.diff new).guest) ∧
    (new.guest_nice < old.guest_nice →
      (old.diff new).guest_nice = U64_MOD - (old.guest_nice - new.guest_nice) ∧
      0 < (old.diff new).guest_nice) := by
  obtain ⟨b1, b2, b3, b4, b5, b6, b7, b8, b9, b10⟩ := hb
  unfold CoreStats.diff
  exact ⟨fun h => wrapping_sub_underflow_pos h b1,
    fun h => wrapping_sub_underflow_pos h b2,
    fun h => wrapping_sub_underflow_pos h b3,
    fun h => wrapping_sub_underflow_pos h b4,
    fun h => wrapping_sub_underflow_pos h b6,
    fun h => wrapping_sub_underflow_pos h b7,
    fun h => wrapping_sub_underflow_pos h b8,
    fun h => wrapping_sub_underflow_pos h b9,
    fun h => wrapping_sub_underflow_pos h b10⟩

/-- Claim C3 witness: a counter regression from 10 to 5 wraps to
`2 ^ 64 - 5`, a positive value. -/
theorem c3_diff_underflow_witness :
    (CoreStats.diff ⟨"cpu0", 10, 0, 0, 0, 0, 0, 0, 0, 0, 0⟩
        ⟨"cpu0", 5, 0, 0, 0, 0, 0, 0, 0, 0, 0⟩).user_processes =
      U64_MOD - (10 - 5) ∧
    0 < (CoreStats.diff ⟨"cpu0", 10, 0, 0, 0, 0, 0, 0, 0, 0, 0⟩
        ⟨"cpu0", 5, 0, 0, 0, 0, 0, 0, 0, 0, 0⟩).user_processes :=
  (c3_diff_underflow ⟨"cpu0", 10, 0, 0, 0, 0, 0, 0, 0, 0, 0⟩
    ⟨"cpu0", 5, 0, 0, 0, 0, 0, 0, 0, 0, 0⟩ (by decide)).1 (by decide)

/-- Claim C4 is false as stated for snapshots whose idle delta is large enough
that `idle_time * 1000` overflows `u64`: the multiplication wraps modulo
`2 ^ 64`, so idle_percent differs from the mathematical
(idle ticks × 1000) / elapsed. Here idle_time = 2^55 and elapsed 1 ms. -/
theorem c4_counterexample :
    CoreSnapshot.idle_percent
        ⟨⟨"cpu0", 0, 0, 0, 36028797018963968, 0, 0, 0, 0, 0, 0⟩, 1⟩ ≠
      some (36028797018963968 * 1000 / 1) := by
  decide

/-- Claim C4 (amended): whenever the elapsed period is positive and the idle
delta times 1000 fits in `u64`, idle_percent is exactly
(idle ticks in delta × 1000) / elapsed milliseconds under floor division. -/
theorem c4_idle_percent_formula (s : CoreSnapshot) (h0 : 0 < s.period_ms)
    (h1 : s.stats.idle_time * 1000 < U64_MOD) :
    s.idle_percent = some (s.stats.idle_time * 1000 / s.period_ms) := by
  unfold CoreSnapshot.idle_percent
  rw [if_neg h0.ne', Nat.mod_eq_of_lt h1]

/-- Claim C4 witness: idle 100 before and 150 after over 500 ms gives an idle
delta of 50 and idle_percent exactly 100. -/
theorem c4_idle_percent_formula_witness :
    CoreSnapshot.idle_percent
      ⟨CoreStats.diff ⟨"cpu0", 0, 0, 0, 100, 0, 0, 0, 0, 0, 0⟩
          ⟨"cpu0", 0, 0, 0, 150, 0, 0, 0, 0, 0, 0⟩, 500⟩ = some 100 := by
  have h := c4_idle_percent_formula
    ⟨CoreStats.diff ⟨"cpu0", 0, 0, 0, 100, 0, 0, 0, 0, 0, 0⟩
        ⟨"cpu0", 0, 0, 0, 150, 0, 0, 0, 0, 0, 0⟩, 500⟩ (by decide) (by decide)
  rw [h]
  decide

/-- Claim C6: when the token stream after the identity (and after the
aggregate placeholder, when present) is missing one of the ten counter tokens
or holds one that fails to parse as a non-negative 64-bit integer,
`CoreStats::from_str` rejects the whole line with `none` — no partial record
with defaulted fields is produced. -/
theorem c6_reject_bad_counters (line : String) (name : List Char)
    (rest : List (List Char))
    (hs : stripIdentity (splitSp line.data) = some (name, rest))
    (hbad : countersOk rest = false) :
    CoreStats.from_str line = none := by
  cases hfs : CoreStats.from_str line with
  | none => rfl
  | some r =>
    exfalso
    unfold CoreStats.from_str fromTokens at hfs
    rw [hs] at hfs
    simp only [Option.bind_eq_bind, Option.some_bind, Option.bind_eq_some] at hfs
    obtain ⟨c, hc, _⟩ := hfs
    rw [readCounters_some_ok rest c hc] at hbad
    simp at hbad

/-- Claim C6 witness: a line with only nine numeric fields after the identity
is rejected, not defaulted. -/
theorem c6_reject_bad_counters_witness :
    CoreStats.from_str "cpu0 1 2 3 4 5 6 7 8 9" = none :=
  c6_reject_bad_counters "cpu0 1 2 3 4 5 6 7 8 9" "cpu0".data
    ["1".data, "2".data, "3".data, "4".data, "5".data, "6".data, "7".data,
     "8".data, "9".data] (by decide) (by decide)

/-- Claim C10: for every snapshot with a positive period the division inside
idle_percent has a nonzero divisor and the computation is defined; there is no
guard for a zero period, where the division panics (modelled as `none`). -/
theorem c10_idle_percent_divisor (s : CoreSnapshot) :
    (0 < s.period_ms → (CoreSnapshot.idle_percent s).isSome = true) ∧
    (s.period_ms = 0 → CoreSnapshot.idle_percent s = none) := by
  constructor
  · intro h
    unfold CoreSnapshot.idle_percent
    rw [if_neg h.ne']
    rfl
  · intro h
    unfold CoreSnapshot.idle_percent
    rw [if_pos h]

/-- Claim C10 witness: a 1000 ms snapshot evaluates, a 0 ms snapshot faults. -/
theorem c10_idle_percent_divisor_witness :
    (CoreSnapshot.idle_percent
        ⟨⟨"cpu0", 0, 0, 0, 20, 0, 0, 0, 0, 0, 0⟩, 1000⟩).isSome = true ∧
    CoreSnapshot.idle_percent ⟨⟨"cpu0", 0, 0, 0, 20, 0, 0, 0, 0, 0, 0⟩, 0⟩ =
      none :=
  ⟨(c10_idle_percent_divisor ⟨⟨"cpu0", 0, 0, 0, 20, 0, 0, 0, 0, 0, 0⟩, 1000⟩).1
      (by decide),
   (c10_idle_percent_divisor ⟨⟨"cpu0", 0, 0, 0, 20, 0, 0, 0, 0, 0, 0⟩, 0⟩).2
      rfl⟩

/-- Claim C5: read() pairs the fresh records with the stored baseline
positionally: exactly min(m, n) snapshots are produced, and the i-th snapshot
is the diff of the i-th old record against the i-th new record (no identity
re-validation), so a shorter new sequence yields only the overlapping
prefix. -/
theorem c5_read_positional (ctx : CPUStatsContext) (now : Nat)
    (now_stats : List CoreStats) :
    (ctx.read now now_stats).1.length =
      min ctx.last_stats.length now_stats.length ∧
    ∀ i : Nat, (ctx.read now now_stats).1[i]? =
      match ctx.last_stats[i]?, now_stats[i]? with
      | some l, some n => some ⟨l.diff n, now - ctx.last_instant⟩
      | _, _ => none := by
  constructor
  · simp only [CPUStatsContext.read]
    exact List.length_zipWith _ _ _
  · intro i
    simp only [CPUStatsContext.read]
    rw [zipWith_getElem?]
    cases ctx.last_stats[i]? <;> cases now_stats[i]? <;> rfl

/-- Claim C7: on an aggregate line — first token `"cpu"` — exactly one
placeholder token is discarded before the ten counters are read, so the
placeholder does not shift field parsing: the counters are those parsed from
the remaining tokens, exactly as for a per-core row with the same tokens; and
is_aggregate holds of a parsed record precisely when its identity is
`"cpu"`. -/
theorem c7_aggregate_placeholder (ph : List Char) (ts : List (List Char)) :
    Option.map CoreStats.toCounters (fromTokens ("cpu".data :: ph :: ts)) =
      readCounters ts ∧
    Option.map CoreStats.toCounters (fromTokens ("cpu0".data :: ts)) =
      readCounters ts ∧
    (∀ r, fromTokens ("cpu".data :: ph :: ts) = some r →
      r.is_aggregate = true) ∧
    (∀ r, fromTokens ("cpu0".data :: ts) = some r →
      r.is_aggregate = false) := by
  cases h : readCounters ts with
  | none =>
    refine ⟨?_, ?_, ?_, ?_⟩ <;>
      simp [fromTokens, stripIdentity, nextToken, h, CoreStats.toCounters]
  | some c =>
    refine ⟨?_, ?_, ?_, ?_⟩ <;>
      simp [fromTokens, stripIdentity, nextToken, h, CoreStats.toCounters,
        CoreStats.is_aggregate]

/-- Claim C7 witness: a concrete aggregate line yields a record recognized as
the aggregate; the same counters under a per-core identity are not. -/
theorem c7_aggregate_placeholder_witness :
    CoreStats.is_aggregate ⟨"cpu", 1, 2, 3, 4, 5, 6, 7, 8, 9, 10⟩ = true ∧
    CoreStats.is_aggregate ⟨"cpu0", 1, 2, 3, 4, 5, 6, 7, 8, 9, 10⟩ = false :=
  ⟨(c7_aggregate_placeholder "".data
      ["1".data, "2".data, "3".data, "4".data, "5".data, "6".data, "7".data,
       "8".data, "9".data, "10".data]).2.2.1
      ⟨"cpu", 1, 2, 3, 4, 5, 6, 7, 8, 9, 10⟩ (by decide),
   (c7_aggregate_placeholder "".data
      ["1".data, "2".data, "3".data, "4".data, "5".data, "6".data, "7".data,
       "8".data, "9".data, "10".data]).2.2.2
      ⟨"cpu0", 1, 2, 3, 4, 5, 6, 7, 8, 9, 10⟩ (by decide)⟩

/-- Claim C8: read() leaves the context holding exactly the freshly parsed
records and the timestamp captured for this call (the context has no other
fields), so every snapshot of the following read() covers precisely the
interval from this call's timestamp to the next call's — back-to-back
intervals. -/
theorem c8_read_replaces_state (ctx : CPUStatsContext) (t1 t2 : Nat)
    (s1 s2 : List CoreStats) :
    (ctx.read t1 s1).2 = ⟨s1, t1⟩ ∧
    ∀ snap ∈ ((ctx.read t1 s1).2.read t2 s2).1,
      snap.period_ms = t2 - t1 := by
  refine ⟨rfl, fun snap hsnap => ?_⟩
  simp only [CPUStatsContext.read] at hsnap
  rw [List.mem_iff_getElem?] at hsnap
  obtain ⟨i, hi⟩ := hsnap
  rw [zipWith_getElem?] at hi
  rcases h1 : s1[i]? with _ | l
  · rw [h1] at hi
    simp at hi
  rcases h2 : s2[i]? with _ | n
  · rw [h1, h2] at hi
    simp at hi
  rw [h1, h2] at hi
  simp only at hi
  cases Option.some.inj hi
  rfl

/-- Claim C8 witness: with baseline taken at time 100 and the next read at
time 250, the produced snapshot covers 250 − 100 milliseconds. -/
theorem c8_read_replaces_state_witness :
    ((⟨[], 7⟩ : CPUStatsContext).read 100
        [⟨"cpu0", 1, 1, 1, 1, 1, 1, 1, 1, 1, 1⟩]).2 =
      ⟨[⟨"cpu0", 1, 1, 1, 1, 1, 1, 1, 1, 1, 1⟩], 100⟩ ∧
    (⟨CoreStats.diff ⟨"cpu0", 1, 1, 1, 1, 1, 1, 1, 1, 1, 1⟩
        ⟨"cpu0", 2, 2, 2, 2, 2, 2, 2, 2, 2, 2⟩, 150⟩ :
      CoreSnapshot).period_ms = 250 - 100 :=
  ⟨(c8_read_replaces_state ⟨[], 7⟩ 100 250
      [⟨"cpu0", 1, 1, 1, 1, 1, 1, 1, 1, 1, 1⟩]
      [⟨"cpu0", 2, 2, 2, 2, 2, 2, 2, 2, 2, 2⟩]).1,
   (c8_read_replaces_state ⟨[], 7⟩ 100 250
      [⟨"cpu0", 1, 1, 1, 1, 1, 1, 1, 1, 1, 1⟩]
      [⟨"cpu0", 2, 2, 2, 2, 2, 2, 2, 2, 2, 2⟩]).2
      ⟨CoreStats.diff ⟨"cpu0", 1, 1, 1, 1, 1, 1, 1, 1, 1, 1⟩
        ⟨"cpu0", 2, 2, 2, 2, 2, 2, 2, 2, 2, 2⟩, 150⟩ (by decide)⟩

/-- Claim C9 is false as stated: the parser does not split on general
whitespace — replacing the single-space separators of a valid line with tabs
changes the tokens, and the two lines do not parse to the same record. -/
theorem c9_counterexample :
    CoreStats.from_str "cpu0\t1\t2\t3\t4\t5\t6\t7\t8\t9\t10" ≠
      CoreStats.from_str "cpu0 1 2 3 4 5 6 7 8 9 10" := by
  decide

/-- Claim C9 (amended): tokenization is by single space characters only: a
single-space-separated counter line parses to its record, while the same
fields separated by a run of two spaces or by tabs tokenize differently and
the line is rejected. -/
theorem c9_single_space_split :
    CoreStats.from_str "cpu0 1 2 3 4 5 6 7 8 9 10" =
      some ⟨"cpu0", 1, 2, 3, 4, 5, 6, 7, 8, 9, 10⟩ ∧
    CoreStats.from_str "cpu0  1 2 3 4 5 6 7 8 9 10" = none ∧
    CoreStats.from_str "cpu0\t1\t2\t3\t4\t5\t6\t7\t8\t9\t10" = none := by
  decide
